import Mathlib

/-!
Shallow embedding of the temp-auth-parser repository (src/auth.py,
src/catalog_parser.py, src/page_parser.py): the authenticated-session model
and the two extraction passes, with the network and the HTML library
abstracted as explicit function parameters. Machine strings are Lean
Strings; Python dicts are insertion-ordered association lists with unique
keys; a raised transport exception is an explicit constructor.
-/

/-- Python str.strip on a character list (drop whitespace from both ends),
modelling the .strip() call in catalog_parser.py line 70. -/
def trimChars (l : List Char) : List Char :=
  ((l.dropWhile Char.isWhitespace).reverse.dropWhile Char.isWhitespace).reverse

/-- Python str.strip on a String. -/
def pystrip (s : String) : String := String.mk (trimChars s.data)

/-- Substring containment over character lists, modelling the Python
substring test used in auth.py line 42. -/
def containsSub : List Char → List Char → Bool
  | needle, [] => needle.isEmpty
  | needle, c :: t => needle.isPrefixOf (c :: t) || containsSub needle t

/-- Split a URL into its scheme and the part after the "://" separator
(model of the scheme split urllib.parse performs on http-style URLs). -/
def splitScheme : List Char → Option (List Char × List Char)
  | [] => none
  | c :: cs =>
    if c = ':' then
      match cs with
      | '/' :: '/' :: rest => some ([], rest)
      | _ => none
    else
      match splitScheme cs with
      | some (sch, rest) => some (c :: sch, rest)
      | none => none

/-- Model of urllib.parse.urljoin as used in catalog_parser.py line 72 for
http-style URLs: an href carrying its own scheme passes through unchanged, a
scheme-relative href keeps the base scheme, a root-relative href replaces
the whole path, and any other href replaces the last path segment of the
base URL. -/
def urljoinChars (base href : List Char) : List Char :=
  if href.isEmpty then base
  else if (href.takeWhile (fun c => c ≠ '/')).contains ':' then href
  else
    match splitScheme base with
    | none => href
    | some (sch, rest) =>
      let netloc := rest.takeWhile (fun c => c ≠ '/')
      let path := rest.dropWhile (fun c => c ≠ '/')
      if href.take 2 = ['/', '/'] then sch ++ ':' :: href
      else if href.take 1 = ['/'] then sch ++ ':' :: '/' :: '/' :: (netloc ++ href)
      else
        let parent := (path.reverse.dropWhile (fun c => c ≠ '/')).reverse
        let parent2 := if parent.isEmpty then ['/'] else parent
        sch ++ ':' :: '/' :: '/' :: (netloc ++ parent2 ++ href)

/-- urljoin on Strings. -/
def urljoin (base href : String) : String := String.mk (urljoinChars base.data href.data)

/-- An HTTP response as the code observes it through requests.Response:
status code plus body (response.text and response.content are both modelled
by the one body string). -/
structure Response where
  statusCode : Nat
  body : String
  deriving DecidableEq

/-- requests.Response.ok: true when the status code is below 400. -/
def Response.ok (r : Response) : Bool := decide (r.statusCode < 400)

/-- Outcome of one network call: a raised transport exception
(requests.RequestException) or a completed response. -/
inductive NetResult where
  | exn
  | resp (r : Response)
  deriving DecidableEq

/-- The literal failure marker tested by CNC1Auth.login, auth.py line 42. -/
def failureMarker : String := "Ошибка"

/-- The success test of auth.py line 42: status code equal to 200 and the
failure marker absent from the response body. -/
def loginSuccess (r : Response) : Bool :=
  r.statusCode == 200 && !(containsSub failureMarker.data r.body.data)

/-- CNC1Auth.login (auth.py lines 25-45) acting on the _is_authenticated
flag, for one outcome of the POST. The first component is what the call
produces: Except.error when session.post raises (the source wraps the POST
in no try block, so the exception propagates), otherwise the returned
boolean. The second component is the flag after the call. -/
def CNC1Auth.login (st : Bool) (o : NetResult) : Except Unit Bool × Bool :=
  match o with
  | NetResult.exn => (Except.error (), st)
  | NetResult.resp r =>
    if loginSuccess r then (Except.ok true, true) else (Except.ok false, st)

/-- CNC1Auth.get (auth.py lines 47-55): returns None without touching the
network when the flag is false, otherwise performs exactly one GET through
the session. The second component counts network calls made. -/
def CNC1Auth.get (st : Bool) (net : String → Response) (url : String) :
    Option Response × Nat :=
  if st then (some (net url), 1) else (none, 0)

/-- One observable operation on a CNC1Auth instance. -/
inductive AuthOp where
  | login (o : NetResult)
  | get (url : String)

/-- Effect of one operation on the _is_authenticated flag (for login the
flag after the call, whether the call returned or raised). -/
def CNC1Auth.step (st : Bool) : AuthOp → Bool
  | AuthOp.login o => (CNC1Auth.login st o).2
  | AuthOp.get _ => st

/-- The _is_authenticated flag after a sequence of operations. -/
def CNC1Auth.runOps (st : Bool) (ops : List AuthOp) : Bool :=
  ops.foldl CNC1Auth.step st

/-- Spec-side definition, following the spec words "success-class outcome"
for the login exchange: a 2xx status code. Declared only to compare the
spec wording with the test the code performs. -/
def specSuccessClass (c : Nat) : Bool := decide (200 ≤ c) && decide (c < 300)

/-- An HTML element as the parsers use it: its text content and its href
attribute (none modelling a missing attribute). -/
structure Element where
  text : String
  href : Option String
  deriving DecidableEq

/-- element.get_text with strip=True, modelled as stripping the text. -/
def Element.getTextStrip (e : Element) : String := pystrip e.text

/-- A parsed document (BeautifulSoup) abstracted by its query results:
select_one, select in document order, and find on the h1 tag. -/
structure Soup where
  selectOne : String → Option Element
  select : String → List Element
  findH1 : Option Element

/-- The network request one _fetch_page call issues: a GET through the
authenticated session, or a plain requests.get with an optional timeout in
seconds. -/
inductive FetchAction where
  | authGet (url : String)
  | plainGet (url : String) (timeout : Option Nat)
  deriving DecidableEq

/-- CatalogParser._fetch_page request choice (catalog_parser.py lines
47-54): session GET when an auth object is supplied and authenticated, else
a plain requests.get with timeout=10. The auth argument is none when no
auth object was supplied, otherwise some of its is_authenticated flag. -/
def CatalogParser.fetchAction : Option Bool → String → FetchAction
  | some true, url => FetchAction.authGet url
  | some false, url => FetchAction.plainGet url (some 10)
  | none, url => FetchAction.plainGet url (some 10)

/-- PageParser._fetch_page request choice (page_parser.py lines 38-45):
session GET when an auth object is supplied and authenticated, else a plain
requests.get with no timeout argument. -/
def PageParser.fetchAction : Option Bool → String → FetchAction
  | some true, url => FetchAction.authGet url
  | some false, url => FetchAction.plainGet url none
  | none, url => FetchAction.plainGet url none

/-- CatalogParser._fetch_page result: a raised transport exception is
caught and becomes None. -/
def CatalogParser.fetchPage (net : FetchAction → NetResult) (auth : Option Bool)
    (url : String) : Option Response :=
  match net (CatalogParser.fetchAction auth url) with
  | NetResult.exn => none
  | NetResult.resp r => some r

/-- PageParser._fetch_page result: a raised transport exception is caught
and becomes None. -/
def PageParser.fetchPage (net : FetchAction → NetResult) (auth : Option Bool)
    (url : String) : Option Response :=
  match net (PageParser.fetchAction auth url) with
  | NetResult.exn => none
  | NetResult.resp r => some r

/-- The availability guard of CatalogParser.parse line 36: the page counts
as available when a response arrived and its status code is exactly 200. -/
def CatalogParser.available : Option Response → Bool
  | none => false
  | some r => r.statusCode == 200

/-- The availability guard of PageParser.parse line 30: the page counts as
available when a response arrived and response.ok holds (status below 400). -/
def PageParser.available : Option Response → Bool
  | none => false
  | some r => Response.ok r

/-- Lookup in a Python dict modelled as an insertion-ordered association
list with unique keys. -/
def dictLookup {α : Type} (k : String) : List (String × α) → Option α
  | [] => none
  | p :: rest => if p.1 = k then some p.2 else dictLookup k rest

/-- Python dict assignment d[k] = v: replace in place when the key exists
(keeping its position), else append at the end. -/
def dictInsert {α : Type} (k : String) (v : α) : List (String × α) → List (String × α)
  | [] => [(k, v)]
  | p :: rest => if p.1 = k then (k, v) :: rest else p :: dictInsert k v rest

/-- Key membership in a dict. -/
def containsKey {α : Type} (k : String) (d : List (String × α)) : Bool :=
  (dictLookup k d).isSome

/-- Removing a key from a dict (models DataFrame.set_index moving the URL
column out of the data columns). -/
def dictRemove {α : Type} (k : String) : List (String × α) → List (String × α)
  | [] => []
  | p :: rest => if p.1 = k then rest else p :: dictRemove k rest

/-- One record row: insertion-ordered mapping from column name to an
optional string value. -/
abbrev Row := List (String × Option String)

/-- PageParser._parse_page (page_parser.py lines 47-56): start from the
dict holding URL = url, then assign each selector column the stripped text
of the first matching element, or None when nothing matches. -/
def PageParser.parseRow (soup : Soup) (selectors : List (String × String))
    (url : String) : Row :=
  selectors.foldl
    (fun row p => dictInsert p.1 ((soup.selectOne p.2).map Element.getTextStrip) row)
    (dictInsert "URL" (some url) [])

/-- PageParser._add_empty_row (page_parser.py lines 58-62): URL = url and
None for every selector column. -/
def PageParser.emptyRow (selectors : List (String × String)) (url : String) : Row :=
  selectors.foldl (fun row p => dictInsert p.1 none row)
    (dictInsert "URL" (some url) [])

/-- The row the loop of PageParser.parse (lines 28-34) appends for one URL:
the empty row when the page is unavailable or not ok, else the parsed row. -/
def PageParser.rowFor (selectors : List (String × String)) (parseHtml : String → Soup)
    (net : FetchAction → NetResult) (auth : Option Bool) (url : String) : Row :=
  match PageParser.fetchPage net auth url with
  | none => PageParser.emptyRow selectors url
  | some r =>
    if Response.ok r then PageParser.parseRow (parseHtml r.body) selectors url
    else PageParser.emptyRow selectors url

/-- The accumulated self.data after the loop of PageParser.parse: one row
per input URL, in input order. -/
def PageParser.parseData (selectors : List (String × String)) (parseHtml : String → Soup)
    (net : FetchAction → NetResult) (auth : Option Bool) (urls : List String) : List Row :=
  urls.map (PageParser.rowFor selectors parseHtml net auth)

/-- Option flattening: a row without a URL cell yields an empty index cell. -/
def flatOpt {α : Type} : Option (Option α) → Option α
  | none => none
  | some v => v

/-- PageParser._build_dataframe (lines 64-67): pd.DataFrame(data) followed
by set_index of the URL column. set_index raises KeyError when no row
supplies a URL column (in particular on the empty frame); otherwise every
row keeps its position, its URL cell becomes the index entry and the
remaining cells stay as data columns. -/
def PageParser.buildDataframe (data : List Row) :
    Except String (List (Option String × Row)) :=
  if data.any (fun row => containsKey "URL" row) then
    Except.ok (data.map (fun row => (flatOpt (dictLookup "URL" row), dictRemove "URL" row)))
  else Except.error "KeyError: URL"

/-- The table PageParser.parse returns whenever it completes. -/
def PageParser.tableOf (selectors : List (String × String)) (parseHtml : String → Soup)
    (net : FetchAction → NetResult) (auth : Option Bool) (urls : List String) :
    List (Option String × Row) :=
  (PageParser.parseData selectors parseHtml net auth urls).map
    (fun row => (flatOpt (dictLookup "URL" row), dictRemove "URL" row))

/-- PageParser.parse (lines 26-36): build every row, then assemble the
indexed table. -/
def PageParser.parse (selectors : List (String × String)) (parseHtml : String → Soup)
    (net : FetchAction → NetResult) (auth : Option Bool) (urls : List String) :
    Except String (List (Option String × Row)) :=
  PageParser.buildDataframe (PageParser.parseData selectors parseHtml net auth urls)

/-- LinkSet: insertion-ordered mapping from page key to its link list. -/
abbrev LinkSet := List (String × List String)

/-- CatalogParser._get_page_key (lines 56-59): stripped text of the first
h1 when one exists, else the URL itself. -/
def CatalogParser.pageKey (soup : Soup) (url : String) : String :=
  match soup.findH1 with
  | some h => Element.getTextStrip h
  | none => url

/-- The loop of CatalogParser._extract_links (lines 61-75) over the matched
elements: skip elements whose href is missing or strips to empty, resolve
every other href against the page URL, keep document order. -/
def CatalogParser.resolveLinks (baseUrl : String) : List Element → List String
  | [] => []
  | e :: rest =>
    match e.href with
    | none => CatalogParser.resolveLinks baseUrl rest
    | some h =>
      if pystrip h = "" then CatalogParser.resolveLinks baseUrl rest
      else urljoin baseUrl (pystrip h) :: CatalogParser.resolveLinks baseUrl rest

/-- CatalogParser._extract_links: resolve the elements matched by the link
selector. -/
def CatalogParser.extractLinks (soup : Soup) (linkSelector : String) (baseUrl : String) :
    List String :=
  CatalogParser.resolveLinks baseUrl (soup.select linkSelector)

/-- One iteration of the loop of CatalogParser.parse (lines 34-43): store
an empty list under the URL when the page is unavailable or not status 200,
else store the extracted links under the derived page key. -/
def CatalogParser.processUrl (linkSelector : String) (parseHtml : String → Soup)
    (net : FetchAction → NetResult) (auth : Option Bool) (acc : LinkSet)
    (url : String) : LinkSet :=
  match CatalogParser.fetchPage net auth url with
  | none => dictInsert url [] acc
  | some r =>
    if r.statusCode == 200 then
      dictInsert (CatalogParser.pageKey (parseHtml r.body) url)
        (CatalogParser.extractLinks (parseHtml r.body) linkSelector url) acc
    else dictInsert url [] acc

/-- CatalogParser.parse (lines 32-45): fold the per-URL step over the input
sequence, starting from the empty result dict. -/
def CatalogParser.parse (linkSelector : String) (parseHtml : String → Soup)
    (net : FetchAction → NetResult) (auth : Option Bool) (urls : List String) : LinkSet :=
  urls.foldl (CatalogParser.processUrl linkSelector parseHtml net auth) []

/-- A document with no matches at all (test environment). -/
def emptySoup : Soup :=
  { selectOne := fun _ => none, select := fun _ => [], findH1 := none }

/-- A page body that parses to the empty document (test environment). -/
def emptyHtml : String → Soup := fun _ => emptySoup

/-- A network where every call raises a transport exception. -/
def downNet : FetchAction → NetResult := fun _ => NetResult.exn

/-- A network answering status 200 with an empty body to every call. -/
def okNet : FetchAction → NetResult := fun _ => NetResult.resp ⟨200, ""⟩

/-- A document whose h1 query yields an element with text " X " and whose
other queries yield nothing (test environment). -/
def c6soup : Soup :=
  { selectOne := fun sel => if sel = "h1" then some ⟨" X ", none⟩ else none,
    select := fun _ => [], findH1 := none }

/-- A page body that parses to c6soup (test environment). -/
def c6html : String → Soup := fun _ => c6soup

/-- A document whose selector matches yield, in document order: a relative
href, a missing href, a whitespace href, a root-relative href and an
absolute href (test environment). -/
def c8soup : Soup :=
  { selectOne := fun _ => none, findH1 := none,
    select := fun _ =>
      [⟨"", some "c.html"⟩, ⟨"", none⟩, ⟨"", some "   "⟩, ⟨"", some "/x"⟩,
       ⟨"", some "https://other.com/y"⟩] }

theorem dictLookup_insert_self {α : Type} (k : String) (v : α) (d : List (String × α)) :
    dictLookup k (dictInsert k v d) = some v := by
  induction d with
  | nil => simp [dictInsert, dictLookup]
  | cons p rest ih =>
    by_cases h : p.1 = k
    · simp [dictInsert, h, dictLookup]
    · simp [dictInsert, h, dictLookup, ih]

theorem dictLookup_insert_ne {α : Type} {k k2 : String} (v : α) (d : List (String × α))
    (h : k2 ≠ k) : dictLookup k (dictInsert k2 v d) = dictLookup k d := by
  induction d with
  | nil => simp [dictInsert, dictLookup, h]
  | cons p rest ih =>
    by_cases hp : p.1 = k2
    · simp [dictInsert, hp, dictLookup, h]
    · by_cases hk : p.1 = k
      · simp [dictInsert, hp, dictLookup, hk, Ne.symm h]
      · simp [dictInsert, hp, dictLookup, hk, ih]

theorem containsKey_insert_self {α : Type} (k : String) (v : α) (d : List (String × α)) :
    containsKey k (dictInsert k v d) = true := by
  simp [containsKey, dictLookup_insert_self]

theorem containsKey_insert {α : Type} {k : String} (k2 : String) (v : α)
    {d : List (String × α)} (h : containsKey k d = true) :
    containsKey k (dictInsert k2 v d) = true := by
  by_cases hk : k2 = k
  · subst hk; exact containsKey_insert_self k2 v d
  · simpa [containsKey, dictLookup_insert_ne v d hk] using h

theorem dictLookup_remove_ne {α : Type} {k f : String} (d : List (String × α))
    (h : f ≠ k) : dictLookup f (dictRemove k d) = dictLookup f d := by
  induction d with
  | nil => simp [dictRemove]
  | cons p rest ih =>
    by_cases hp : p.1 = k
    · have hpf : p.1 ≠ f := by rw [hp]; exact fun hh => h hh.symm
      simp [dictRemove, hp, dictLookup, hpf, Ne.symm h]
    · by_cases hf : p.1 = f
      · simp [dictRemove, hp, dictLookup, hf, h]
      · simp [dictRemove, hp, dictLookup, hf, ih]

theorem dictLookup_foldl_notin (g : String × String → Option String)
    (ps : List (String × String)) (row : Row) (f : String)
    (h : f ∉ ps.map Prod.fst) :
    dictLookup f (ps.foldl (fun r p => dictInsert p.1 (g p) r) row) = dictLookup f row := by
  induction ps generalizing row with
  | nil => rfl
  | cons p rest ih =>
    simp only [List.map_cons, List.mem_cons] at h
    push_neg at h
    rw [List.foldl_cons, ih _ h.2, dictLookup_insert_ne _ _ (fun hh => h.1 hh.symm)]

theorem dictLookup_foldl_mem (g : String × String → Option String)
    (ps : List (String × String)) (row : Row) (f s : String)
    (hmem : (f, s) ∈ ps) (hnd : (ps.map Prod.fst).Nodup) :
    dictLookup f (ps.foldl (fun r p => dictInsert p.1 (g p) r) row) = some (g (f, s)) := by
  induction ps generalizing row with
  | nil => cases hmem
  | cons p rest ih =>
    rw [List.foldl_cons]
    simp only [List.map_cons, List.nodup_cons] at hnd
    rcases List.mem_cons.mp hmem with heq | htail
    · subst heq
      rw [dictLookup_foldl_notin g rest _ f hnd.1]
      exact dictLookup_insert_self f (g (f, s)) row
    · exact ih _ htail hnd.2

theorem dictLookup_foldl_constv (v : Option String)
    (ps : List (String × String)) (row : Row) (f : String)
    (h : f ∈ ps.map Prod.fst) :
    dictLookup f (ps.foldl (fun r p => dictInsert p.1 v r) row) = some v := by
  induction ps generalizing row with
  | nil => cases h
  | cons p rest ih =>
    rw [List.foldl_cons]
    by_cases hf : f ∈ rest.map Prod.fst
    · exact ih _ hf
    · have hp : p.1 = f := by
        rcases List.mem_cons.mp h with heq | htail
        · exact heq.symm
        · exact absurd htail hf
      rw [dictLookup_foldl_notin (fun _ => v) rest _ f hf, hp, dictLookup_insert_self]

theorem containsKey_foldl (g : String × String → Option String)
    (ps : List (String × String)) (row : Row) (k : String)
    (h : containsKey k row = true) :
    containsKey k (ps.foldl (fun r p => dictInsert p.1 (g p) r) row) = true := by
  induction ps generalizing row with
  | nil => exact h
  | cons p rest ih => exact ih _ (containsKey_insert p.1 (g p) h)

theorem parseRow_lookup_url (soup : Soup) (selectors : List (String × String))
    (url : String) (hurl : "URL" ∉ selectors.map Prod.fst) :
    dictLookup "URL" (PageParser.parseRow soup selectors url) = some (some url) := by
  have h := dictLookup_foldl_notin
    (fun p => (soup.selectOne p.2).map Element.getTextStrip) selectors
    (dictInsert "URL" (some url) []) "URL" hurl
  rw [dictLookup_insert_self] at h
  exact h

theorem emptyRow_lookup_url (selectors : List (String × String)) (url : String)
    (hurl : "URL" ∉ selectors.map Prod.fst) :
    dictLookup "URL" (PageParser.emptyRow selectors url) = some (some url) := by
  have h := dictLookup_foldl_notin (fun _ => none) selectors
    (dictInsert "URL" (some url) []) "URL" hurl
  rw [dictLookup_insert_self] at h
  exact h

theorem emptyRow_lookup_field (selectors : List (String × String)) (url : String)
    (f : String) (hf : f ∈ selectors.map Prod.fst) :
    dictLookup f (PageParser.emptyRow selectors url) = some none := by
  exact dictLookup_foldl_constv none selectors (dictInsert "URL" (some url) []) f hf

theorem rowFor_unavailable (selectors : List (String × String)) (parseHtml : String → Soup)
    (net : FetchAction → NetResult) (auth : Option Bool) (url : String)
    (h : PageParser.available (PageParser.fetchPage net auth url) = false) :
    PageParser.rowFor selectors parseHtml net auth url = PageParser.emptyRow selectors url := by
  unfold PageParser.rowFor
  cases hf : PageParser.fetchPage net auth url with
  | none => rfl
  | some r =>
    rw [hf] at h
    simp only [PageParser.available] at h
    simp [h]

theorem containsKey_url_parseRow (soup : Soup) (selectors : List (String × String))
    (url : String) : containsKey "URL" (PageParser.parseRow soup selectors url) = true :=
  containsKey_foldl _ selectors _ "URL" (containsKey_insert_self "URL" (some url) [])

theorem containsKey_url_emptyRow (selectors : List (String × String)) (url : String) :
    containsKey "URL" (PageParser.emptyRow selectors url) = true :=
  containsKey_foldl _ selectors _ "URL" (containsKey_insert_self "URL" (some url) [])

theorem containsKey_url_rowFor (selectors : List (String × String)) (parseHtml : String → Soup)
    (net : FetchAction → NetResult) (auth : Option Bool) (url : String) :
    containsKey "URL" (PageParser.rowFor selectors parseHtml net auth url) = true := by
  unfold PageParser.rowFor
  cases PageParser.fetchPage net auth url with
  | none => exact containsKey_url_emptyRow selectors url
  | some r =>
    by_cases hr : Response.ok r = true
    · simp only [hr, if_true]
      exact containsKey_url_parseRow _ selectors url
    · simp only [Bool.not_eq_true] at hr
      simp only [hr]
      exact containsKey_url_emptyRow selectors url

theorem rowFor_lookup_url (selectors : List (String × String)) (parseHtml : String → Soup)
    (net : FetchAction → NetResult) (auth : Option Bool) (url : String)
    (hurl : "URL" ∉ selectors.map Prod.fst) :
    dictLookup "URL" (PageParser.rowFor selectors parseHtml net auth url) = some (some url) := by
  unfold PageParser.rowFor
  cases PageParser.fetchPage net auth url with
  | none => exact emptyRow_lookup_url selectors url hurl
  | some r =>
    by_cases hr : Response.ok r = true
    · simp only [hr, if_true]
      exact parseRow_lookup_url _ selectors url hurl
    · simp only [Bool.not_eq_true] at hr
      simp only [hr]
      exact emptyRow_lookup_url selectors url hurl

theorem parse_eq_ok (selectors : List (String × String)) (parseHtml : String → Soup)
    (net : FetchAction → NetResult) (auth : Option Bool) (urls : List String)
    (hne : urls ≠ []) :
    PageParser.parse selectors parseHtml net auth urls =
      Except.ok (PageParser.tableOf selectors parseHtml net auth urls) := by
  cases urls with
  | nil => exact absurd rfl hne
  | cons u rest =>
    have hk : (PageParser.parseData selectors parseHtml net auth (u :: rest)).any
        (fun row => containsKey "URL" row) = true := by
      unfold PageParser.parseData
      rw [List.map_cons, List.any_cons, containsKey_url_rowFor]
      rfl
    unfold PageParser.parse PageParser.buildDataframe PageParser.tableOf
    rw [hk]
    rfl

theorem processUrl_unavailable (linkSelector : String) (parseHtml : String → Soup)
    (net : FetchAction → NetResult) (auth : Option Bool) (acc : LinkSet) (url : String)
    (h : CatalogParser.available (CatalogParser.fetchPage net auth url) = false) :
    CatalogParser.processUrl linkSelector parseHtml net auth acc url = dictInsert url [] acc := by
  unfold CatalogParser.processUrl
  cases hf : CatalogParser.fetchPage net auth url with
  | none => rfl
  | some r =>
    rw [hf] at h
    simp only [CatalogParser.available] at h
    simp [h]

theorem containsKey_catalog_foldl (linkSelector : String) (parseHtml : String → Soup)
    (net : FetchAction → NetResult) (auth : Option Bool) (urls : List String)
    (acc : LinkSet) (k : String) (h : containsKey k acc = true) :
    containsKey k (urls.foldl (CatalogParser.processUrl linkSelector parseHtml net auth) acc) = true := by
  induction urls generalizing acc with
  | nil => exact h
  | cons u rest ih =>
    rw [List.foldl_cons]
    apply ih
    unfold CatalogParser.processUrl
    cases CatalogParser.fetchPage net auth u with
    | none => exact containsKey_insert _ _ h
    | some r =>
      by_cases hr : (r.statusCode == 200) = true
      · simp only [hr, if_true]
        exact containsKey_insert _ _ h
      · simp only [Bool.not_eq_true] at hr
        simp only [hr]
        exact containsKey_insert _ _ h

theorem catalog_parse_member (linkSelector : String) (parseHtml : String → Soup)
    (net : FetchAction → NetResult) (auth : Option Bool) (urls : List String)
    (url : String) (hmem : url ∈ urls)
    (h : CatalogParser.available (CatalogParser.fetchPage net auth url) = false) :
    containsKey url (CatalogParser.parse linkSelector parseHtml net auth urls) = true := by
  obtain ⟨s, t, rfl⟩ := List.append_of_mem hmem
  unfold CatalogParser.parse
  rw [List.foldl_append, List.foldl_cons]
  apply containsKey_catalog_foldl
  rw [processUrl_unavailable linkSelector parseHtml net auth _ url h]
  exact containsKey_insert_self url [] _

theorem step_true (op : AuthOp) : CNC1Auth.step true op = true := by
  cases op with
  | login o =>
    cases o with
    | exn => rfl
    | resp r =>
      simp only [CNC1Auth.step, CNC1Auth.login]
      split
      · rfl
      · rfl
  | get u => rfl

theorem runOps_true (ops : List AuthOp) : CNC1Auth.runOps true ops = true := by
  induction ops with
  | nil => rfl
  | cons op rest ih =>
    unfold CNC1Auth.runOps at ih ⊢
    rw [List.foldl_cons, step_true]
    exact ih

/-- C9: the authentication-state transition of CNC1Auth is one-way: once
the flag is true after some operation sequence, it remains true along any
further login and fetch operations; no operation, including a later failed
login, resets it. -/
theorem C9_auth_one_way (st : Bool) (ops ops2 : List AuthOp)
    (h : CNC1Auth.runOps st ops = true) :
    CNC1Auth.runOps st (ops ++ ops2) = true := by
  unfold CNC1Auth.runOps at h ⊢
  rw [List.foldl_append, h]
  exact runOps_true ops2

/-- Witness for C9: after one successful login, a failed login and a fetch
leave the flag true. -/
theorem C9_witness :
    CNC1Auth.runOps false
      ([AuthOp.login (NetResult.resp ⟨200, ""⟩)] ++
        [AuthOp.login (NetResult.resp ⟨403, "x"⟩), AuthOp.get "u"]) = true :=
  C9_auth_one_way false [AuthOp.login (NetResult.resp ⟨200, ""⟩)]
    [AuthOp.login (NetResult.resp ⟨403, "x"⟩), AuthOp.get "u"] (by decide)

/-- C3 counterexample: on a transport-failure outcome the login call does
not return false: the exception from session.post propagates out of login
(no try block in auth.py lines 25-45), refuting the claim that login never
raises. -/
theorem C3_cex :
    (CNC1Auth.login false NetResult.exn).1 = Except.error () ∧
    (CNC1Auth.login false NetResult.exn).1 ≠ Except.ok false :=
  ⟨rfl, fun h => Except.noConfusion h⟩

/-- C3 (amended): for every completed login exchange the call returns a
boolean without raising, and on a failed exchange it returns false leaving
the state flag unchanged; on a transport failure the flag is likewise
unchanged, but the exception propagates out of the call. -/
theorem C3_login_no_raise_on_completed (st : Bool) (r : Response) :
    (CNC1Auth.login st (NetResult.resp r)).1 = Except.ok (loginSuccess r) ∧
    (loginSuccess r = false →
      CNC1Auth.login st (NetResult.resp r) = (Except.ok false, st)) ∧
    (CNC1Auth.login st NetResult.exn).2 = st := by
  refine ⟨?_, ?_, rfl⟩
  · by_cases h : loginSuccess r = true
    · simp [CNC1Auth.login, h]
    · have hf : loginSuccess r = false := by simpa using h
      simp [CNC1Auth.login, hf]
  · intro hf
    simp [CNC1Auth.login, hf]

/-- Witness for C3 at a concrete failed exchange. -/
theorem C3_witness :
    CNC1Auth.login false (NetResult.resp ⟨403, ""⟩) = (Except.ok false, false) :=
  (C3_login_no_raise_on_completed false ⟨403, ""⟩).2.1 (by decide)

/-- C4 counterexample: a completed exchange whose response has the
success-class status 204 and a body free of the failure marker makes login
return false and leaves the session unauthenticated, refuting the claim
that every success-class marker-free response yields true. -/
theorem C4_cex :
    specSuccessClass 204 = true ∧
    containsSub failureMarker.data (Response.body ⟨204, ""⟩).data = false ∧
    CNC1Auth.login false (NetResult.resp ⟨204, ""⟩) = (Except.ok false, false) :=
  ⟨rfl, rfl, rfl⟩

/-- C4 (amended): login returns true and transitions to authenticated iff
the POST completed with status code exactly 200 (not any success-class
code) and a body free of the failure marker; every other completed
exchange returns false. -/
theorem C4_login_criterion (st : Bool) (r : Response) :
    (CNC1Auth.login st (NetResult.resp r) = (Except.ok true, true) ↔
      (r.statusCode = 200 ∧ containsSub failureMarker.data r.body.data = false)) ∧
    (¬(r.statusCode = 200 ∧ containsSub failureMarker.data r.body.data = false) →
      (CNC1Auth.login st (NetResult.resp r)).1 = Except.ok false) := by
  have hchar : loginSuccess r = true ↔
      (r.statusCode = 200 ∧ containsSub failureMarker.data r.body.data = false) := by
    simp [loginSuccess]
  by_cases h : loginSuccess r = true
  · refine ⟨⟨fun _ => hchar.mp h, fun _ => by simp [CNC1Auth.login, h]⟩, ?_⟩
    intro hc
    exact absurd (hchar.mp h) hc
  · have hf : loginSuccess r = false := by simpa using h
    refine ⟨⟨?_, ?_⟩, fun _ => by simp [CNC1Auth.login, hf]⟩
    · intro hcontra
      have h1 := congrArg Prod.fst hcontra
      simp [CNC1Auth.login, hf] at h1
    · intro hc
      exact absurd (hchar.mpr hc) h

/-- Witness for C4: a 200 marker-free exchange authenticates; a 500
exchange returns false. -/
theorem C4_witness :
    CNC1Auth.login false (NetResult.resp ⟨200, "ok"⟩) = (Except.ok true, true) ∧
    (CNC1Auth.login false (NetResult.resp ⟨500, ""⟩)).1 = Except.ok false :=
  ⟨(C4_login_criterion false ⟨200, "ok"⟩).1.mpr (by decide),
   (C4_login_criterion false ⟨500, ""⟩).2 (by decide)⟩

/-- C5: for every URL and mock transport, fetching through CNC1Auth while
unauthenticated returns None with zero network calls performed; only in
the authenticated state does it issue exactly one GET through the session. -/
theorem C5_unauthenticated_fetch (net : String → Response) (url : String) :
    CNC1Auth.get false net url = (none, 0) ∧
    CNC1Auth.get true net url = (some (net url), 1) :=
  ⟨rfl, rfl⟩

/-- C2 counterexample: with no session the two fetch operations issue
different plain requests (timeout 10 versus none), and a 204 response is
unavailable for CatalogParser but available for PageParser, refuting the
claim that the fetch policy and the success criterion are identical. -/
theorem C2_cex :
    CatalogParser.fetchAction none "https://x.test/p" ≠
      PageParser.fetchAction none "https://x.test/p" ∧
    CatalogParser.available (some ⟨204, ""⟩) = false ∧
    PageParser.available (some ⟨204, ""⟩) = true := by
  refine ⟨?_, rfl, rfl⟩
  intro h
  simp [CatalogParser.fetchAction, PageParser.fetchAction] at h

/-- C2 (amended): both extractors choose identically between the
authenticated session and the plain path, and both turn a raised transport
exception into an unavailable page; but the plain unauthenticated requests
differ (CatalogParser passes timeout=10, PageParser passes no timeout) and
the availability criteria differ (status exactly 200 versus status below
400). -/
theorem C2_fetch_policy (url : String) (auth : Option Bool) :
    (auth = some true →
      CatalogParser.fetchAction auth url = FetchAction.authGet url ∧
      PageParser.fetchAction auth url = FetchAction.authGet url) ∧
    (auth ≠ some true →
      CatalogParser.fetchAction auth url = FetchAction.plainGet url (some 10) ∧
      PageParser.fetchAction auth url = FetchAction.plainGet url none) ∧
    (∀ r : Response,
      (CatalogParser.available (some r) = true ↔ r.statusCode = 200) ∧
      (PageParser.available (some r) = true ↔ r.statusCode < 400)) ∧
    (∀ net : FetchAction → NetResult,
      (CatalogParser.fetchPage net auth url = none ↔
        net (CatalogParser.fetchAction auth url) = NetResult.exn) ∧
      (PageParser.fetchPage net auth url = none ↔
        net (PageParser.fetchAction auth url) = NetResult.exn)) := by
  refine ⟨?_, ?_, ?_, ?_⟩
  · intro h
    subst h
    exact ⟨rfl, rfl⟩
  · intro h
    match auth with
    | none => exact ⟨rfl, rfl⟩
    | some false => exact ⟨rfl, rfl⟩
    | some true => exact absurd rfl h
  · intro r
    constructor
    · simp [CatalogParser.available]
    · simp [PageParser.available, Response.ok]
  · intro net
    constructor
    · unfold CatalogParser.fetchPage
      cases net (CatalogParser.fetchAction auth url) with
      | exn => simp
      | resp r => simp
    · unfold PageParser.fetchPage
      cases net (PageParser.fetchAction auth url) with
      | exn => simp
      | resp r => simp

/-- Witness for C2 at concrete inputs. -/
theorem C2_witness :
    CatalogParser.fetchAction none "u" = FetchAction.plainGet "u" (some 10) ∧
    PageParser.fetchAction none "u" = FetchAction.plainGet "u" none ∧
    CatalogParser.fetchAction (some true) "u" = FetchAction.authGet "u" ∧
    CatalogParser.available (some ⟨200, ""⟩) = true :=
  ⟨((C2_fetch_policy "u" none).2.1 (by simp)).1,
   ((C2_fetch_policy "u" none).2.1 (by simp)).2,
   ((C2_fetch_policy "u" (some true)).1 rfl).1,
   ((C2_fetch_policy "u" none).2.2.1 ⟨200, ""⟩).1.mpr rfl⟩

/-- C8: href resolution against the page URL: a missing href or an href
that strips to whitespace is skipped, and for a page at
https://example.com/a/b a relative href, a root-relative href and an
absolute href resolve as the spec states, in document order. -/
theorem C8_link_resolution :
    (∀ (baseUrl : String) (els : List Element) (e : Element), e.href = none →
      CatalogParser.resolveLinks baseUrl (e :: els) = CatalogParser.resolveLinks baseUrl els) ∧
    (∀ (baseUrl : String) (els : List Element) (e : Element) (h : String),
      e.href = some h → pystrip h = "" →
      CatalogParser.resolveLinks baseUrl (e :: els) = CatalogParser.resolveLinks baseUrl els) ∧
    CatalogParser.extractLinks c8soup "a.link" "https://example.com/a/b" =
      ["https://example.com/a/c.html", "https://example.com/x", "https://other.com/y"] := by
  refine ⟨?_, ?_, rfl⟩
  · intro baseUrl els e he
    simp only [CatalogParser.resolveLinks, he]
  · intro baseUrl els e h he hs
    simp only [CatalogParser.resolveLinks, he, hs]
    simp

/-- Witness for C8: concrete skipped elements. -/
theorem C8_witness :
    CatalogParser.resolveLinks "https://example.com/a/b" [⟨"", none⟩] =
      CatalogParser.resolveLinks "https://example.com/a/b" [] ∧
    CatalogParser.resolveLinks "https://example.com/a/b" [⟨"", some "  "⟩] =
      CatalogParser.resolveLinks "https://example.com/a/b" [] :=
  ⟨C8_link_resolution.1 "https://example.com/a/b" [] ⟨"", none⟩ rfl,
   C8_link_resolution.2.1 "https://example.com/a/b" [] ⟨"", some "  "⟩ "  " rfl (by decide)⟩

/-- C10: for the empty input URL sequence, PageParser.parse does not
return an empty table: pd.DataFrame of no rows has no URL column, so the
set_index step fails with a KeyError instead of completing. -/
theorem C10_empty_input_error (selectors : List (String × String))
    (parseHtml : String → Soup) (net : FetchAction → NetResult) (auth : Option Bool) :
    PageParser.parse selectors parseHtml net auth [] = Except.error "KeyError: URL" :=
  rfl

/-- C1 counterexample: on the empty input URL sequence the RecordExtractor
run does not complete with a (zero-row) full-shaped table: the
table-assembly step fails with a KeyError. -/
theorem C1_cex :
    PageParser.parse [("Title", "h1")] emptyHtml downNet none [] =
      Except.error "KeyError: URL" :=
  rfl

/-- C1 (amended): for every nonempty URL sequence and SelectorMap without a
field named URL, PageParser.parse completes with exactly one row per
requested URL; every URL whose page is unavailable or non-success yields
the row indexed by that URL with every selector field null; in
CatalogParser every unavailable URL performs exactly the step storing an
empty link list under the URL itself as key, that key is present in the
final mapping, and a per-URL failure never aborts the remaining URLs. -/
theorem C1_full_shape (selectors : List (String × String)) (parseHtml : String → Soup)
    (net : FetchAction → NetResult) (auth : Option Bool) (linkSelector : String)
    (urls : List String) (hne : urls ≠ []) (hurl : "URL" ∉ selectors.map Prod.fst) :
    PageParser.parse selectors parseHtml net auth urls =
      Except.ok (PageParser.tableOf selectors parseHtml net auth urls) ∧
    (PageParser.tableOf selectors parseHtml net auth urls).length = urls.length ∧
    (∀ i : Nat, ∀ (h : i < urls.length)
        (h2 : i < (PageParser.tableOf selectors parseHtml net auth urls).length),
      PageParser.available (PageParser.fetchPage net auth (urls.get ⟨i, h⟩)) = false →
      ((PageParser.tableOf selectors parseHtml net auth urls).get ⟨i, h2⟩).1 =
          some (urls.get ⟨i, h⟩) ∧
      (∀ f, f ∈ selectors.map Prod.fst →
        dictLookup f
          ((PageParser.tableOf selectors parseHtml net auth urls).get ⟨i, h2⟩).2 =
          some none)) ∧
    (∀ (acc : LinkSet) (url : String),
      CatalogParser.available (CatalogParser.fetchPage net auth url) = false →
      CatalogParser.processUrl linkSelector parseHtml net auth acc url =
        dictInsert url [] acc) ∧
    (∀ url, url ∈ urls →
      CatalogParser.available (CatalogParser.fetchPage net auth url) = false →
      containsKey url (CatalogParser.parse linkSelector parseHtml net auth urls) = true) := by
  refine ⟨parse_eq_ok selectors parseHtml net auth urls hne, ?_, ?_, ?_, ?_⟩
  · simp [PageParser.tableOf, PageParser.parseData]
  · intro i h h2 hunav
    have hget1 : ((PageParser.tableOf selectors parseHtml net auth urls).get ⟨i, h2⟩).1 =
        flatOpt (dictLookup "URL"
          (PageParser.rowFor selectors parseHtml net auth (urls.get ⟨i, h⟩))) := by
      simp [PageParser.tableOf, PageParser.parseData, List.get_eq_getElem, List.getElem_map]
    have hget2 : ((PageParser.tableOf selectors parseHtml net auth urls).get ⟨i, h2⟩).2 =
        dictRemove "URL"
          (PageParser.rowFor selectors parseHtml net auth (urls.get ⟨i, h⟩)) := by
      simp [PageParser.tableOf, PageParser.parseData, List.get_eq_getElem, List.getElem_map]
    constructor
    · rw [hget1, rowFor_unavailable selectors parseHtml net auth _ hunav,
        emptyRow_lookup_url selectors _ hurl]
      rfl
    · intro f hf
      have hfne : f ≠ "URL" := fun hh => hurl (hh ▸ hf)
      rw [hget2, rowFor_unavailable selectors parseHtml net auth _ hunav,
        dictLookup_remove_ne _ hfne, emptyRow_lookup_field selectors _ f hf]
  · intro acc url hunav
    exact processUrl_unavailable linkSelector parseHtml net auth acc url hunav
  · intro url hmem hunav
    exact catalog_parse_member linkSelector parseHtml net auth urls url hmem hunav

/-- Witness for C1 at a concrete run whose single URL fails with a
transport exception. -/
theorem C1_witness :
    PageParser.parse [("Title", "h1")] emptyHtml downNet none ["u1"] =
      Except.ok [(some "u1", [("Title", none)])] ∧
    CatalogParser.processUrl "a.link" emptyHtml downNet none [] "u1" = [("u1", [])] ∧
    containsKey "u1" (CatalogParser.parse "a.link" emptyHtml downNet none ["u1"]) = true := by
  have h := C1_full_shape [("Title", "h1")] emptyHtml downNet none "a.link" ["u1"]
    (by decide) (by decide)
  exact ⟨h.1, h.2.2.2.1 [] "u1" rfl, h.2.2.2.2 "u1" (by decide) rfl⟩

/-- C7: whenever PageParser.parse returns a table, the table has exactly
one row per input URL occurrence, and (with no selector field named URL)
the row at every input position is indexed by exactly the URL at that
position: no sorting and no deduplication happen. -/
theorem C7_row_order (selectors : List (String × String)) (parseHtml : String → Soup)
    (net : FetchAction → NetResult) (auth : Option Bool) (urls : List String)
    (t : List (Option String × Row))
    (hok : PageParser.parse selectors parseHtml net auth urls = Except.ok t) :
    t.length = urls.length ∧
    ("URL" ∉ selectors.map Prod.fst →
      ∀ i : Nat, ∀ (h : i < urls.length) (h2 : i < t.length),
        (t.get ⟨i, h2⟩).1 = some (urls.get ⟨i, h⟩)) := by
  have ht : t = PageParser.tableOf selectors parseHtml net auth urls := by
    unfold PageParser.parse PageParser.buildDataframe at hok
    split at hok
    · injection hok with hh
      rw [← hh]
      rfl
    · exact Except.noConfusion hok
  subst ht
  constructor
  · simp [PageParser.tableOf, PageParser.parseData]
  · intro hurl i h h2
    have hget1 : ((PageParser.tableOf selectors parseHtml net auth urls).get ⟨i, h2⟩).1 =
        flatOpt (dictLookup "URL"
          (PageParser.rowFor selectors parseHtml net auth (urls.get ⟨i, h⟩))) := by
      simp [PageParser.tableOf, PageParser.parseData, List.get_eq_getElem, List.getElem_map]
    rw [hget1, rowFor_lookup_url selectors parseHtml net auth _ hurl]
    rfl

/-- Witness for C7 at a concrete two-URL run. -/
theorem C7_witness :
    (([(some "u1", [("Title", some "X")]), (some "u2", [("Title", some "X")])] :
        List (Option String × Row)).length = (["u1", "u2"] : List String).length) ∧
    (([(some "u1", [("Title", some "X")]), (some "u2", [("Title", some "X")])] :
        List (Option String × Row)).get ⟨0, by decide⟩).1 = some "u1" := by
  have h := C7_row_order [("Title", "h1")] c6html okNet none ["u1", "u2"]
    [(some "u1", [("Title", some "X")]), (some "u2", [("Title", some "X")])] rfl
  exact ⟨h.1, h.2 (by decide) 0 (by decide) (by decide)⟩

/-- C6 counterexample: with a SelectorMap field literally named URL, the
URL field of the record is overwritten by the extracted value and is not
the requested URL. -/
theorem C6_cex :
    dictLookup "URL" (PageParser.parseRow c6soup [("URL", "h1")] "https://u.test/p") =
      some (some "X") ∧
    some (some "X") ≠ some (some "https://u.test/p") :=
  ⟨rfl, by decide⟩

/-- C6 (amended): for every successfully parsed page, each SelectorMap
field holds the stripped text content of the first element matching its
selector, or null when nothing matches; and provided no SelectorMap field
is itself named URL, the URL field holds exactly the requested input URL
(never a resolved or redirected one). -/
theorem C6_field_extraction (soup : Soup) (url : String)
    (selectors : List (String × String)) (f s : String)
    (hnd : (selectors.map Prod.fst).Nodup) (hmem : (f, s) ∈ selectors) :
    (∀ e : Element, soup.selectOne s = some e →
      dictLookup f (PageParser.parseRow soup selectors url) = some (some (pystrip e.text))) ∧
    (soup.selectOne s = none →
      dictLookup f (PageParser.parseRow soup selectors url) = some none) ∧
    ("URL" ∉ selectors.map Prod.fst →
      dictLookup "URL" (PageParser.parseRow soup selectors url) = some (some url)) := by
  have key : dictLookup f (PageParser.parseRow soup selectors url) =
      some ((soup.selectOne s).map Element.getTextStrip) :=
    dictLookup_foldl_mem
      (fun p => (soup.selectOne p.2).map Element.getTextStrip) selectors
      (dictInsert "URL" (some url) []) f s hmem hnd
  refine ⟨?_, ?_, fun hurl => parseRow_lookup_url soup selectors url hurl⟩
  · intro e he
    rw [key, he]
    rfl
  · intro he
    rw [key, he]
    rfl

/-- Witness for C6 at a concrete page with one matching and one
non-matching selector. -/
theorem C6_witness :
    dictLookup "Title"
      (PageParser.parseRow c6soup [("Title", "h1"), ("Price", ".price")] "https://u.test/p") =
      some (some "X") ∧
    dictLookup "Price"
      (PageParser.parseRow c6soup [("Title", "h1"), ("Price", ".price")] "https://u.test/p") =
      some none ∧
    dictLookup "URL"
      (PageParser.parseRow c6soup [("Title", "h1"), ("Price", ".price")] "https://u.test/p") =
      some (some "https://u.test/p") := by
  refine ⟨?_, ?_, ?_⟩
  · exact (C6_field_extraction c6soup "https://u.test/p" [("Title", "h1"), ("Price", ".price")]
      "Title" "h1" (by decide) (by decide)).1 ⟨" X ", none⟩ rfl
  · exact (C6_field_extraction c6soup "https://u.test/p" [("Title", "h1"), ("Price", ".price")]
      "Price" ".price" (by decide) (by decide)).2.1 rfl
  · exact (C6_field_extraction c6soup "https://u.test/p" [("Title", "h1"), ("Price", ".price")]
      "Title" "h1" (by decide) (by decide)).2.2 (by decide)
